import Mathlib

/-!
Verification development for the `matcho` structural pattern-matching
library.  The repository ships two generations of the matcher:

* `matcho.py` — the original single-module implementation (matchers and
  templates); embedded below under the `MatchoPy` namespace;
* `matcho/pattern.py` — the package implementation of the matcher
  (pre-seeded repetition accumulators, `BindAs`, `find_bindings`);
  embedded below under the `PatternPy` namespace.

Python values are embedded as the inductive `Value`; Python exceptions
become the `Failure` (matching) and `TErr` (template instantiation)
types.  Python dictionaries are association lists with dict-update
semantics (`aset`, `amerge`).  Matchers are embedded compile-then-run,
mirroring the source: `build_matcher` produces a closure of type
`MatcherF`, and the runner functions (`fixd_run`, `repeating_run`, ...)
are the bodies of the corresponding compiled matcher classes/closures.
-/

set_option maxHeartbeats 1600000

namespace Matcho

/-- Dynamic values of the embedded Python fragment: integers, strings,
lists, dictionaries (association lists of key/value pairs, unique keys)
and the `Repeating` wrapper from `matcho.bindings` that represents
repeated bindings. -/
inductive Value where
  | vint : Int → Value
  | vstr : String → Value
  | vlist : List Value → Value
  | vdict : List (Value × Value) → Value
  | vrep : List Value → Value

mutual

/-- Python `==` on embedded values (structural equality). -/
def veq : Value → Value → Bool
  | .vint a, .vint b => a == b
  | .vstr a, .vstr b => a == b
  | .vlist a, .vlist b => veqList a b
  | .vdict a, .vdict b => veqPairs a b
  | .vrep a, .vrep b => veqList a b
  | _, _ => false

/-- Elementwise Python `==` on lists. -/
def veqList : List Value → List Value → Bool
  | [], [] => true
  | x :: xs, y :: ys => veq x y && veqList xs ys
  | _, _ => false

/-- Pairwise Python `==` on dictionary items. -/
def veqPairs : List (Value × Value) → List (Value × Value) → Bool
  | [], [] => true
  | (k1, v1) :: xs, (k2, v2) :: ys => veq k1 k2 && veq v1 v2 && veqPairs xs ys
  | _, _ => false

end

/-- Is this value a `Repeating`?  (`isinstance(value, Repeating)`). -/
def isRep : Value → Bool
  | .vrep _ => true
  | _ => false

/-- Exceptions a matcher invocation can raise.  The first five mirror
the `Mismatch` taxonomy of `matcho`; `skip` is the `Skip` control
signal; the remaining constructors stand for ordinary Python exceptions
(`TypeError`, `AttributeError`, `KeyError`, `IndexError`,
`AssertionError`) that are not part of the `Mismatch` hierarchy. -/
inductive Failure where
  | literalMismatch
  | typeMismatch
  | lengthMismatch (got expected : Nat)
  | keyMismatch (key : Value)
  | castMismatch
  | skip
  | typeError
  | attributeError
  | keyError
  | indexError
  | assertionError

/-- Membership in the `Mismatch` exception hierarchy
(`isinstance(e, Mismatch)`). -/
def isMismatch : Failure → Bool
  | .literalMismatch => true
  | .typeMismatch => true
  | .lengthMismatch _ _ => true
  | .keyMismatch _ => true
  | .castMismatch => true
  | _ => false

/-- Bindings: a Python dict from capture names to values, embedded as an
association list with unique keys in insertion order. -/
abbrev Bindings := List (String × Value)

/-- Python dict lookup on a string-keyed association list. -/
def alookup {β : Type} : List (String × β) → String → Option β
  | [], _ => none
  | (k2, v) :: rest, k => if k2 = k then some v else alookup rest k

/-- Python dict assignment `d[k] = v`: replace in place, or append. -/
def aset {β : Type} : List (String × β) → String → β → List (String × β)
  | [], k, v => [(k, v)]
  | (k2, v2) :: rest, k, v =>
      if k2 = k then (k2, v) :: rest else (k2, v2) :: aset rest k v

/-- Python dict merge `d1 | d2` (right side wins, keys keep position). -/
def amerge {β : Type} (b c : List (String × β)) : List (String × β) :=
  c.foldl (fun acc p => aset acc p.1 p.2) b

/-- Python dict lookup on a value-keyed association list (data dicts). -/
def dlookup : List (Value × Value) → Value → Option Value
  | [], _ => none
  | (k2, v) :: rest, k => if veq k2 k then some v else dlookup rest k

/-- Python list indexing `xs[i]`, including negative indices;
out-of-range raises `IndexError`. -/
def pyListIndex (xs : List Value) (i : Int) : Except Failure Value :=
  let j : Int := if i < 0 then i + xs.length else i
  match xs.get? j.toNat with
  | some v => if 0 ≤ j then .ok v else .error .indexError
  | none => .error .indexError

/-- Python string indexing `s[i]` (yields a one-character string). -/
def pyStrIndex (s : String) (i : Int) : Except Failure Value :=
  let cs := s.toList
  let j : Int := if i < 0 then i + cs.length else i
  match cs.get? j.toNat with
  | some c => if 0 ≤ j then .ok (.vstr (String.mk [c])) else .error .indexError
  | none => .error .indexError

/-- Keys of a dictionary pattern: a plain key, or a key wrapped by
`default(key, default_value)`. -/
inductive DKey where
  | plain : Value → DKey
  | dflt : Value → Value → DKey

/-- The underlying key of a (possibly `Default`-wrapped) pattern key. -/
def dkeyRaw : DKey → Value
  | .plain k => k
  | .dflt k _ => k

/-- The function `lookup(mapping, key)`, textually identical in
`matcho.py` and `matcho/pattern.py`: a `Default` key falls back to its
default value via `mapping.get`; a plain key raises `KeyMismatch` on
`KeyError`; non-dict "mappings" behave as the corresponding Python
subscript/`.get` would (lists index, strings index, others raise). -/
def lookup (mapping : Value) (key : DKey) : Except Failure Value :=
  match key with
  | .dflt k dv =>
      match mapping with
      | .vdict pairs => .ok ((dlookup pairs k).getD dv)
      | _ => .error .attributeError
  | .plain k =>
      match mapping with
      | .vdict pairs =>
          match dlookup pairs k with
          | some v => .ok v
          | none => .error (.keyMismatch k)
      | .vlist xs =>
          match k with
          | .vint i => pyListIndex xs i
          | _ => .error .typeError
      | .vstr s =>
          match k with
          | .vint i => pyStrIndex s i
          | _ => .error .typeError
      | _ => .error .typeError

/-- Patterns constructible through the public helpers (`bind(name)`,
`bind_as`, `skip_mismatch`, `skip_missing_keys`, plain literals, lists
and dicts).  A list pattern `[*ps, last, ELLIPSIS]` is represented as
`repeatingList ps last`; `[ELLIPSIS]` alone is `anyList`. -/
inductive Pattern where
  | lit : Value → Pattern
  | bind : String → Pattern
  | bindAs : String → Pattern → Option Value → Pattern
  | skipMismatch : Pattern → Pattern
  | skipMissingKeys : List Value → Pattern → Pattern
  | fixedList : List Pattern → Pattern
  | repeatingList : List Pattern → Pattern → Pattern
  | anyList : Pattern
  | dict : List (DKey × Pattern) → Pattern

/-- A compiled matcher: data in, bindings or failure out. -/
abbrev MatcherF := Value → Except Failure Bindings

/-- Body of `LiteralMatcher.__call__` / `match_literal`. -/
def literal_run (v : Value) : MatcherF := fun d =>
  if veq d v then .ok [] else .error .literalMismatch

/-- Body of `InstanceMatcher.__call__` with expected type `list`. -/
def instance_run : MatcherF := fun d =>
  match d with
  | .vlist _ => .ok []
  | _ => .error .typeMismatch

/-- The `reduce(or_, map(apply_first, zip(matchers, data)), {})` loop of
the fixed-list matchers: run each matcher on its element, merging the
bindings left to right; the first failure propagates. -/
def seq_run : List MatcherF → List Value → Bindings → Except Failure Bindings
  | [], _, acc => .ok acc
  | _, [], acc => .ok acc
  | m :: ms, x :: xs, acc =>
      match m x with
      | .ok b => seq_run ms xs (amerge acc b)
      | .error e => .error e

/-- Body of `FixdListMatcher.__call__` / `match_fixed_list`: a type
check, a length check, then the elementwise loop. -/
def fixd_run (ms : List MatcherF) : MatcherF := fun d =>
  match d with
  | .vlist xs =>
      if xs.length = ms.length then seq_run ms xs []
      else .error (.lengthMismatch xs.length ms.length)
  | _ => .error .typeMismatch

/-- Body of `BindingMatcher.__call__` (pattern.py): run the inner
matcher, add `{name: data}`; on a `Mismatch` fall back to the default
if one was supplied, otherwise re-raise. -/
def binding_run (m : MatcherF) (name : String) (dv : Option Value) : MatcherF :=
  fun d =>
    match m d with
    | .ok b => .ok (amerge b [(name, d)])
    | .error e =>
        if isMismatch e then
          match dv with
          | some v => .ok [(name, v)]
          | none => .error e
        else .error e

/-- Error-translating wrapper built by `build_mismatch_skipper` for
`skip_mismatch`: any `Mismatch` becomes `Skip`, anything else
propagates.  The behaviour coincides in both implementations. -/
def skip_on_mismatch_run (m : MatcherF) : MatcherF := fun d =>
  match m d with
  | .ok b => .ok b
  | .error e => if isMismatch e then .error .skip else .error e

/-- Error-translating wrapper built by `build_mismatch_skipper` for
`skip_missing_keys`: a `KeyMismatch` whose key is listed becomes `Skip`;
a `KeyMismatch` on an unlisted key, and every other failure, propagate
unchanged.  The behaviour coincides in both implementations. -/
def skip_missing_keys_run (keys : List Value) (m : MatcherF) : MatcherF :=
  fun d =>
    match m d with
    | .ok b => .ok b
    | .error e =>
        match e with
        | .keyMismatch k =>
            if keys.any (fun e2 => veq e2 k) then .error .skip
            else .error (.keyMismatch k)
        | _ => .error e

/-- The pre-seeding loop of `RepeatingListMatcher.__call__`:
`assert name not in bindings; bindings[name] = Repeating([])`. -/
def preseed : Bindings → List String → Except Failure Bindings
  | b, [] => .ok b
  | b, n :: ns =>
      match alookup b n with
      | some _ => .error .assertionError
      | none => preseed (b ++ [(n, .vrep [])]) ns

/-- The accumulator update `bindings[k].values.append(v)` of
`RepeatingListMatcher.__call__`, applied to every item of a sub-match
result: a missing key raises `KeyError`; a non-`Repeating` entry raises
`AttributeError`. -/
def append_all : Bindings → Bindings → Except Failure Bindings
  | b, [] => .ok b
  | b, (k, v) :: rest =>
      match alookup b k with
      | some (.vrep vs) => append_all (aset b k (.vrep (vs ++ [v]))) rest
      | some _ => .error .attributeError
      | none => .error .keyError

/-- The element loop of `RepeatingListMatcher.__call__`: each remaining
element is matched; a `Skip` drops the element entirely; a success
appends every binding to its accumulator. -/
def rep_fold (m : MatcherF) : Bindings → List Value → Except Failure Bindings
  | b, [] => .ok b
  | b, d :: ds =>
      match m d with
      | .error .skip => rep_fold m b ds
      | .error e => .error e
      | .ok bnd =>
          match append_all b bnd with
          | .ok b2 => rep_fold m b2 ds
          | .error e => .error e

/-- Body of `RepeatingListMatcher.__call__` (pattern.py).  Note that the
data is sliced (`data[:n_prefix]`, `data[n_prefix:]`) without a prior
`isinstance(data, list)` check: slicing a string yields a string (which
the prefix `FixdListMatcher` then rejects with `TypeMismatch`), while
slicing an int, dict or `Repeating` raises a plain `TypeError`. -/
def repeating_run (preMs : List MatcherF) (repM : MatcherF)
    (names : List String) : MatcherF := fun d =>
  match d with
  | .vlist xs =>
      match fixd_run preMs (.vlist (xs.take preMs.length)) with
      | .error e => .error e
      | .ok b0 =>
          match preseed b0 names with
          | .error e => .error e
          | .ok b1 => rep_fold repM b1 (xs.drop preMs.length)
  | .vstr _ => .error .typeMismatch
  | _ => .error .typeError

/-- The key/matcher loop shared by both dict matchers: look each
declared key up in the data and merge the sub-bindings. -/
def dict_seq : List (DKey × MatcherF) → Value → Bindings →
    Except Failure Bindings
  | [], _, acc => .ok acc
  | (k, m) :: ms, d, acc =>
      match lookup d k with
      | .error e => .error e
      | .ok dv =>
          match m dv with
          | .error e => .error e
          | .ok b => dict_seq ms d (amerge acc b)

/-- Body of `DictMatcher.__call__` (pattern.py): rejects non-dict data
with `TypeMismatch`, then runs the key/matcher loop. -/
def dict_run (ms : List (DKey × MatcherF)) : MatcherF := fun d =>
  match d with
  | .vdict _ => dict_seq ms d []
  | _ => .error .typeMismatch

end Matcho

namespace PatternPy

open Matcho

mutual

/-- The static analysis `find_bindings(template, nesting_level=0)` of
`matcho/pattern.py`: the names bound by a pattern together with the
nesting level the analysis assigns them.  Faithful to the source,
including its defaulted recursive calls: the `BindAs` and skip-wrapper
cases recurse with nesting level 0, and the list case adds the number
of ellipses in the list to the level of every element (prefix elements
of a repeating list included). -/
def find_bindings : Pattern → Nat → List (String × Nat)
  | .bind name, nl => [(name, nl)]
  | .bindAs name sub _, nl => aset (find_bindings sub 0) name nl
  | .skipMismatch sub, _ => find_bindings sub 0
  | .skipMissingKeys _ sub, _ => find_bindings sub 0
  | .lit _, _ => []
  | .anyList, _ => []
  | .fixedList ps, nl => fb_list ps nl []
  | .repeatingList pre lastp, nl =>
      amerge (fb_list pre (nl + 1) []) (find_bindings lastp (nl + 1))
  | .dict entries, nl => fb_dict entries nl []

/-- The `for x in template: bindings |= find_bindings(x, ...)` loop of
the list case of `find_bindings`. -/
def fb_list : List Pattern → Nat → List (String × Nat) → List (String × Nat)
  | [], _, acc => acc
  | p :: ps, nl, acc => fb_list ps nl (amerge acc (find_bindings p nl))

/-- The `for k, v in template.items(): bindings |= find_bindings(v, ...)`
loop of the dict case of `find_bindings`. -/
def fb_dict : List (DKey × Pattern) → Nat → List (String × Nat) →
    List (String × Nat)
  | [], _, acc => acc
  | (_, p) :: ps, nl, acc => fb_dict ps nl (amerge acc (find_bindings p nl))

end

mutual

/-- `build_matcher` of `matcho/pattern.py` (casts and type patterns,
which no claim touches, are not represented; `bind(name)` is the
`dtype=None` form). -/
def build_matcher : Pattern → MatcherF
  | .lit v => literal_run v
  | .bind name => fun d => .ok [(name, d)]
  | .bindAs name p dv => binding_run (build_matcher p) name dv
  | .skipMismatch p => skip_on_mismatch_run (build_matcher p)
  | .skipMissingKeys keys p => skip_missing_keys_run keys (build_matcher p)
  | .fixedList ps => fixd_run (build_matcher_list ps)
  | .repeatingList pre lastp =>
      repeating_run (build_matcher_list pre) (build_matcher lastp)
        ((find_bindings lastp 0).map Prod.fst)
  | .anyList => instance_run
  | .dict entries => dict_run (build_dict_matchers entries)

/-- The `[build_matcher(p) for p in patterns]` comprehension. -/
def build_matcher_list : List Pattern → List MatcherF
  | [] => []
  | p :: ps => build_matcher p :: build_matcher_list ps

/-- The `{k: build_matcher(v) for k, v in pattern.items()}` comprehension. -/
def build_dict_matchers : List (DKey × Pattern) → List (DKey × MatcherF)
  | [] => []
  | (k, p) :: rest => (k, build_matcher p) :: build_dict_matchers rest

end

/-- Invoke the compiled pattern.py matcher on data. -/
def matchP (p : Pattern) (d : Value) : Except Failure Bindings :=
  build_matcher p d

end PatternPy

namespace MatchoPy

open Matcho

/-- The accumulator update of `match_repeating` in `matcho.py`:
`bindings.setdefault(k, Repeating([])).values.append(v)` — unlike the
pattern.py version a missing key is created on the fly, so no
pre-seeding happens and a repetition of zero matches leaves the name
absent. -/
def append_all_m : Bindings → Bindings → Except Failure Bindings
  | b, [] => .ok b
  | b, (k, v) :: rest =>
      match alookup b k with
      | some (.vrep vs) => append_all_m (aset b k (.vrep (vs ++ [v]))) rest
      | some _ => .error .attributeError
      | none => append_all_m (b ++ [(k, .vrep [v])]) rest

/-- The element loop of `match_repeating` in `matcho.py`. -/
def rep_fold_m (m : MatcherF) : Bindings → List Value → Except Failure Bindings
  | b, [] => .ok b
  | b, d :: ds =>
      match m d with
      | .error .skip => rep_fold_m m b ds
      | .error e => .error e
      | .ok bnd =>
          match append_all_m b bnd with
          | .ok b2 => rep_fold_m m b2 ds
          | .error e => .error e

/-- Body of `match_repeating` in `matcho.py`: an `isinstance` check, a
length check `len(data) <= n_prefix` (so the repeated pattern must match
at least once), the prefix reduce, then the element loop. -/
def repeating_run_m (preMs : List MatcherF) (repM : MatcherF) : MatcherF :=
  fun d =>
    match d with
    | .vlist xs =>
        if xs.length ≤ preMs.length then
          .error (.lengthMismatch xs.length (preMs.length + 1))
        else
          match seq_run preMs (xs.take preMs.length) [] with
          | .error e => .error e
          | .ok b0 => rep_fold_m repM b0 (xs.drop preMs.length)
    | _ => .error .typeMismatch

/-- Body of `match_dict` in `matcho.py`: no `isinstance` check at all —
the data is handed straight to `lookup`, whatever it is. -/
def dict_run_m (ms : List (DKey × MatcherF)) : MatcherF := fun d =>
  dict_seq ms d []

mutual

/-- `build_matcher` of `matcho.py` (the original module).  It knows no
`BindAs`: such a pattern object falls through to the literal matcher,
and since no data value equals the pattern object the match always
raises `LiteralMismatch`. -/
def build_matcher : Pattern → MatcherF
  | .lit v => literal_run v
  | .bind name => fun d => .ok [(name, d)]
  | .bindAs _ _ _ => fun _ => .error .literalMismatch
  | .skipMismatch p => skip_on_mismatch_run (build_matcher p)
  | .skipMissingKeys keys p => skip_missing_keys_run keys (build_matcher p)
  | .fixedList ps => fixd_run (build_matcher_list ps)
  | .repeatingList pre lastp =>
      repeating_run_m (build_matcher_list pre) (build_matcher lastp)
  | .anyList => instance_run
  | .dict entries => dict_run_m (build_dict_matchers entries)

/-- The `[build_matcher(p) for p in pattern]` comprehension of
`matcho.py`. -/
def build_matcher_list : List Pattern → List MatcherF
  | [] => []
  | p :: ps => build_matcher p :: build_matcher_list ps

/-- The `{k: build_matcher(v) for k, v in pattern.items()}`
comprehension of `matcho.py`. -/
def build_dict_matchers : List (DKey × Pattern) → List (DKey × MatcherF)
  | [] => []
  | (k, p) :: rest => (k, build_matcher p) :: build_dict_matchers rest

end

/-- Invoke the compiled matcho.py matcher on data. -/
def matchM (p : Pattern) (d : Value) : Except Failure Bindings :=
  build_matcher p d

/-- Templates of `matcho.py`: literals, `insert(name)`, fixed lists,
lists ending in one repetition marker (`repT items rep` stands for
`[*items, rep, ELLIPSIS]`) and dict templates.  The two-marker
flattening form is not needed by any claim and is not represented. -/
inductive Template where
  | lit : Value → Template
  | ins : String → Template
  | fixedT : List Template → Template
  | repT : List Template → Template → Template
  | dictT : List (Template × Template) → Template

/-- Errors raised during template instantiation: `KeyError` on an
unbound name, the two `ValueError`s of `build_insertion_template` and
`common_repetition_length`, and `IndexError` from `get_nested`. -/
inductive TErr where
  | nameNotFound (name : String)
  | stillRepeating (name : String)
  | repeatLengthMismatch (name : String) (got expected : Nat)
  | noRepeatedBindings
  | indexError
  deriving DecidableEq

/-- `get_nested(value, nesting_level)` of `matcho.py`: peel one
`Repeating` layer per coordinate index, stopping early at the first
non-`Repeating` value; an out-of-range index raises `IndexError`. -/
def get_nested : Value → List Nat → Except TErr Value
  | v, [] => .ok v
  | .vrep vs, i :: rest =>
      match vs.get? i with
      | some v => get_nested v rest
      | none => .error .indexError
  | v, _ :: _ => .ok v

/-- The inlined `get_nested(bindings[name], nesting_level)` used by both
`build_insertion_template` and `common_repetition_length`. -/
def resolve_name (b : Bindings) (nl : List Nat) (name : String) :
    Except TErr Value :=
  match alookup b name with
  | none => .error (.nameNotFound name)
  | some v => get_nested v nl

/-- The length of the `Repeating` a name resolves to at a coordinate, if
any. -/
def repLen (b : Bindings) (nl : List Nat) (name : String) : Option Nat :=
  match resolve_name b nl name with
  | .ok (.vrep vs) => some vs.length
  | _ => none

/-- The `for name in used_names` loop of `common_repetition_length`,
with the running `length` accumulator (`none` = Python `None`). -/
def common_repetition_loop (b : Bindings) (nl : List Nat) :
    List String → Option Nat → Except TErr Nat
  | [], none => .error .noRepeatedBindings
  | [], some l => .ok l
  | name :: rest, acc =>
      match resolve_name b nl name with
      | .error e => .error e
      | .ok (.vrep vs) =>
          match acc with
          | none => common_repetition_loop b nl rest (some vs.length)
          | some l =>
              if vs.length = l then common_repetition_loop b nl rest (some l)
              else .error (.repeatLengthMismatch name vs.length l)
      | .ok _ => common_repetition_loop b nl rest acc

/-- `common_repetition_length(bindings, nesting_level, used_names)` of
`matcho.py`. -/
def common_repetition_length (b : Bindings) (nl : List Nat)
    (names : List String) : Except TErr Nat :=
  common_repetition_loop b nl names none

/-- Python set union, embedded as order-preserving dedup on lists. -/
def sunion (a b : List String) : List String :=
  b.foldl (fun acc n => if acc.contains n then acc else acc ++ [n]) a

mutual

/-- `find_insertions(template)` of `matcho.py`: the set of names
inserted anywhere in a template. -/
def find_insertions : Template → List String
  | .ins name => [name]
  | .lit _ => []
  | .fixedT items => fi_list items []
  | .repT items rep => sunion (fi_list items []) (find_insertions rep)
  | .dictT entries => fi_dict entries []

/-- The `for x in template: names |= find_insertions(x)` loop. -/
def fi_list : List Template → List String → List String
  | [], acc => acc
  | t :: ts, acc => fi_list ts (sunion acc (find_insertions t))

/-- The `for k, v in template.items()` loop of `find_insertions`. -/
def fi_dict : List (Template × Template) → List String → List String
  | [], acc => acc
  | (k, v) :: ts, acc =>
      fi_dict ts (sunion (sunion acc (find_insertions k)) (find_insertions v))

end

/-- A compiled instantiator: bindings and nesting coordinate in,
reconstructed value or error out. -/
abbrev InstF := Bindings → List Nat → Except TErr Value

/-- Body of the `instantiate` closure of `build_insertion_template`. -/
def insert_run (name : String) : InstF := fun b nl =>
  match resolve_name b nl name with
  | .error e => .error e
  | .ok w => if isRep w then .error (.stillRepeating name) else .ok w

/-- The `[x(bindings, nesting_level) for x in fixed_instantiators]`
comprehension: instantiate each element, first error wins. -/
def inst_seq : List InstF → Bindings → List Nat → Except TErr (List Value)
  | [], _, _ => .ok []
  | f :: fs, b, nl =>
      match f b nl with
      | .error e => .error e
      | .ok v =>
          match inst_seq fs b nl with
          | .error e => .error e
          | .ok vs => .ok (v :: vs)

/-- Body of the plain `instantiate` closure of
`build_actual_list_template` (no repetition marker). -/
def list_run (fs : List InstF) : InstF := fun b nl =>
  match inst_seq fs b nl with
  | .error e => .error e
  | .ok vs => .ok (.vlist vs)

/-- The `[rep_instantiator(bindings, nesting_level + (i,)) for i in
range(rep_len)]` comprehension, with `count` iterations remaining and
`i` the next index. -/
def rep_iter (f : InstF) (b : Bindings) (nl : List Nat) :
    Nat → Nat → Except TErr (List Value)
  | 0, _ => .ok []
  | count + 1, i =>
      match f b (nl ++ [i]) with
      | .error e => .error e
      | .ok v =>
          match rep_iter f b nl count (i + 1) with
          | .error e => .error e
          | .ok vs => .ok (v :: vs)

/-- Body of the `instantiate_repeating` closure of
`build_actual_list_template`.  Faithful to the source, the fixed part
is produced by `instantiate(bindings)` — without passing
`nesting_level`, so the fixed items are instantiated at the default
empty coordinate `()` — then the repetition count is computed over the
names inserted in `rep`, and the repeated part is appended. -/
def rep_list_run (fixedFs : List InstF) (repF : InstF)
    (names : List String) : InstF := fun b nl =>
  match inst_seq fixedFs b [] with
  | .error e => .error e
  | .ok fixedPart =>
      match common_repetition_length b nl names with
      | .error e => .error e
      | .ok count =>
          match rep_iter repF b nl count 0 with
          | .error e => .error e
          | .ok varPart => .ok (.vlist (fixedPart ++ varPart))

/-- Python dict assignment for value-keyed dicts (template results):
replace the first matching key in place, else append. -/
def dset : List (Value × Value) → Value → Value → List (Value × Value)
  | [], k, v => [(k, v)]
  | (k2, v2) :: rest, k, v =>
      if veq k2 k then (k2, v) :: rest else (k2, v2) :: dset rest k v

/-- The dict-comprehension loop of `build_dict_template`: instantiate
each key template then each value template, accumulating a dict. -/
def dict_inst_seq : List (InstF × InstF) → Bindings → List Nat →
    List (Value × Value) → Except TErr Value
  | [], _, _, acc => .ok (.vdict acc)
  | (fk, fv) :: fs, b, nl, acc =>
      match fk b nl with
      | .error e => .error e
      | .ok kv =>
          match fv b nl with
          | .error e => .error e
          | .ok vv => dict_inst_seq fs b nl (dset acc kv vv)

/-- Body of the `instantiate` closure of `build_dict_template`. -/
def dict_template_run (fs : List (InstF × InstF)) : InstF := fun b nl =>
  dict_inst_seq fs b nl []

mutual

/-- `build_template(spec)` of `matcho.py` (the flattening two-marker
form, which no claim touches, is not represented). -/
def build_template : Template → InstF
  | .lit v => fun _ _ => .ok v
  | .ins name => insert_run name
  | .fixedT items => list_run (build_template_list items)
  | .repT items rep =>
      rep_list_run (build_template_list items) (build_template rep)
        (find_insertions rep)
  | .dictT entries => dict_template_run (build_template_pairs entries)

/-- The `[build_template(t) for t in items]` comprehension. -/
def build_template_list : List Template → List InstF
  | [] => []
  | t :: ts => build_template t :: build_template_list ts

/-- The `{build_template(k): build_template(v) ...}` comprehension. -/
def build_template_pairs : List (Template × Template) → List (InstF × InstF)
  | [] => []
  | (k, v) :: rest =>
      (build_template k, build_template v) :: build_template_pairs rest

end

/-- Invoke the compiled template on bindings at a nesting coordinate. -/
def instT (t : Template) (b : Bindings) (nl : List Nat) : Except TErr Value :=
  build_template t b nl

end MatchoPy

namespace Matcho

theorem alookup_append_some {β : Type} (l : List (String × β)) :
    ∀ (b : List (String × β)) (k : String) (v : β),
      alookup b k = some v → alookup (b ++ l) k = some v := by
  intro b
  induction b with
  | nil => intro k v h; simp [alookup] at h
  | cons p rest ih =>
      intro k v h
      obtain ⟨k2, v2⟩ := p
      by_cases hk : k2 = k
      · subst hk
        simp only [alookup, if_true, eq_self_iff_true] at h
        simp [alookup, h]
      · simp only [alookup, hk, if_neg hk] at h
        simpa [alookup, hk] using ih k v h

theorem alookup_append_none {β : Type} (l : List (String × β)) :
    ∀ (b : List (String × β)) (k : String),
      alookup b k = none → alookup (b ++ l) k = alookup l k := by
  intro b
  induction b with
  | nil => intro k _; simp
  | cons p rest ih =>
      intro k h
      obtain ⟨k2, v2⟩ := p
      by_cases hk : k2 = k
      · simp [alookup, hk] at h
      · simp only [alookup, hk, if_neg hk] at h
        simpa [alookup, hk] using ih k h

theorem alookup_aset_self {β : Type} :
    ∀ (b : List (String × β)) (k : String) (v : β),
      alookup (aset b k v) k = some v := by
  intro b
  induction b with
  | nil => intro k v; simp [aset, alookup]
  | cons p rest ih =>
      intro k v
      obtain ⟨k2, v2⟩ := p
      by_cases hk : k2 = k
      · simp [aset, hk, alookup]
      · simp [aset, hk, alookup, ih]

theorem alookup_aset_ne {β : Type} :
    ∀ (b : List (String × β)) (k2 k : String) (v : β),
      k2 ≠ k → alookup (aset b k2 v) k = alookup b k := by
  intro b
  induction b with
  | nil => intro k2 k v hne; simp [aset, alookup, hne]
  | cons p rest ih =>
      intro k2 k v hne
      obtain ⟨k3, v3⟩ := p
      by_cases hk : k3 = k2
      · subst hk
        simp [aset, alookup, hne]
      · by_cases hk2 : k3 = k
        · subst hk2
          simp [aset, alookup, hk]
        · simp [aset, hk, alookup, hk2, ih _ _ _ hne]

theorem append_all_keeps_rep :
    ∀ (bnd b b2 : Bindings) (name : String) (vs : List Value),
      append_all b bnd = .ok b2 → alookup b name = some (.vrep vs) →
      ∃ vs2, alookup b2 name = some (.vrep vs2) := by
  intro bnd
  induction bnd with
  | nil =>
      intro b b2 name vs h hrep
      simp only [append_all, Except.ok.injEq] at h
      exact ⟨vs, h ▸ hrep⟩
  | cons p rest ih =>
      intro b b2 name vs h hrep
      obtain ⟨k, v⟩ := p
      simp only [append_all] at h
      split at h
      · rename_i vs0 heq
        by_cases hk : k = name
        · subst hk
          exact ih _ _ _ _ h (by simpa using alookup_aset_self b k (.vrep (vs0 ++ [v])))
        · exact ih _ _ _ _ h (by rw [alookup_aset_ne _ _ _ _ hk]; exact hrep)
      · simp at h
      · simp at h

theorem rep_fold_keeps_rep (m : MatcherF) (name : String) :
    ∀ (ds : List Value) (b b2 : Bindings) (vs : List Value),
      rep_fold m b ds = .ok b2 → alookup b name = some (.vrep vs) →
      ∃ vs2, alookup b2 name = some (.vrep vs2) := by
  intro ds
  induction ds with
  | nil =>
      intro b b2 vs h hrep
      simp only [rep_fold, Except.ok.injEq] at h
      exact ⟨vs, h ▸ hrep⟩
  | cons d rest ih =>
      intro b b2 vs h hrep
      simp only [rep_fold] at h
      split at h
      · exact ih _ _ _ h hrep
      · simp at h
      · rename_i bnd heq
        split at h
        · rename_i b3 heq2
          obtain ⟨vs3, h3⟩ := append_all_keeps_rep bnd b b3 name vs heq2 hrep
          exact ih _ _ _ h h3
        · simp at h

theorem preseed_keeps_some :
    ∀ (ns : List String) (b b2 : Bindings) (k : String) (v : Value),
      preseed b ns = .ok b2 → alookup b k = some v → alookup b2 k = some v := by
  intro ns
  induction ns with
  | nil =>
      intro b b2 k v h hk
      simp only [preseed, Except.ok.injEq] at h
      exact h ▸ hk
  | cons n rest ih =>
      intro b b2 k v h hk
      simp only [preseed] at h
      split at h
      · simp at h
      · exact ih _ _ _ _ h (alookup_append_some _ _ _ _ hk)

theorem preseed_mem :
    ∀ (ns : List String) (b b2 : Bindings) (n : String),
      preseed b ns = .ok b2 → n ∈ ns → alookup b2 n = some (.vrep []) := by
  intro ns
  induction ns with
  | nil => intro b b2 n _ hmem; simp at hmem
  | cons n0 rest ih =>
      intro b b2 n h hmem
      simp only [preseed] at h
      split at h
      · simp at h
      · rename_i hnone
        rcases List.mem_cons.mp hmem with heq | htail
        · subst heq
          refine preseed_keeps_some rest _ _ _ _ h ?_
          rw [alookup_append_none _ _ _ hnone]
          simp [alookup]
        · exact ih _ _ _ h htail

/-- A skipped element is dropped by the repeating-list element loop no
matter where in the tail it sits. -/
theorem rep_fold_drops_skipped (m : MatcherF) (d : Value)
    (hskip : m d = .error .skip) :
    ∀ (A B : List Value) (b : Bindings),
      rep_fold m b (A ++ d :: B) = rep_fold m b (A ++ B) := by
  intro A
  induction A with
  | nil =>
      intro B b
      simp [rep_fold, hskip]
  | cons a rest ih =>
      intro B b
      simp only [List.cons_append, rep_fold]
      split
      · exact ih B b
      · rfl
      · split
        · rename_i b2 _
          exact ih B b2
        · rfl

end Matcho

namespace PatternPy

open Matcho

theorem build_matcher_list_length :
    ∀ (ps : List Pattern), (build_matcher_list ps).length = ps.length := by
  intro ps
  induction ps with
  | nil => rfl
  | cons p rest ih => simp [build_matcher_list, ih]

end PatternPy

open Matcho

/-- C1: in the pattern.py repeating-list matcher, every name bindable by
the repeated sub-pattern (per the static analysis `find_bindings`) is
pre-seeded with an empty `Repeating`, so a successful match always binds
each such name to a `Repeating` — never leaving it absent — and a match
whose repeated section contains zero elements binds it to exactly
`Repeating([])`; in particular `[bind("x"), ELLIPSIS]` matched against
`[]` succeeds with `{x: Repeating([])}`. -/
theorem c1_empty_repetition_never_absent :
    (PatternPy.matchP (.repeatingList [] (.bind "x")) (.vlist []) =
      .ok [("x", .vrep [])]) ∧
    ∀ (pre : List Pattern) (lastp : Pattern) (xs : List Value) (b : Bindings)
      (name : String),
      name ∈ (PatternPy.find_bindings lastp 0).map Prod.fst →
      PatternPy.matchP (.repeatingList pre lastp) (.vlist xs) = .ok b →
      (∃ vs, alookup b name = some (.vrep vs)) ∧
        (xs.length = pre.length → alookup b name = some (.vrep [])) := by
  refine ⟨rfl, ?_⟩
  intro pre lastp xs b name hname hok
  simp only [PatternPy.matchP, PatternPy.build_matcher, repeating_run] at hok
  split at hok
  · simp at hok
  · rename_i b0 hfix
    split at hok
    · simp at hok
    · rename_i b1 hps
      refine ⟨rep_fold_keeps_rep _ name _ _ _ [] hok
        (preseed_mem _ _ _ _ hps hname), ?_⟩
      intro hlen
      have hdrop : xs.drop (PatternPy.build_matcher_list pre).length = [] := by
        apply List.drop_eq_nil_of_le
        rw [PatternPy.build_matcher_list_length, ← hlen]
      rw [hdrop] at hok
      simp only [rep_fold, Except.ok.injEq] at hok
      exact hok ▸ preseed_mem _ _ _ _ hps hname

/-- C1 witness: the general statement applied to the concrete pattern
`[bind("x"), ELLIPSIS]` and the empty list. -/
theorem c1_empty_repetition_never_absent_witness :
    alookup [("x", Value.vrep [])] "x" = some (.vrep []) :=
  (c1_empty_repetition_never_absent.2 [] (.bind "x") [] [("x", .vrep [])] "x"
    (by simp [PatternPy.find_bindings]) rfl).2 rfl

/-- C4: a `Skip` raised for an element of the repeated section appends
nothing to any accumulator and matching continues with the next element
— the element behaves exactly as if it were removed from the list; in
particular `[skip_mismatch([1, bind("x")]), ELLIPSIS]` matched against
`[[1,2],[1],[1,3]]` succeeds with `{x: Repeating([2,3])}`. -/
theorem c4_skip_excluded_from_all_accumulators :
    (PatternPy.matchP
        (.repeatingList []
          (.skipMismatch (.fixedList [.lit (.vint 1), .bind "x"])))
        (.vlist [.vlist [.vint 1, .vint 2], .vlist [.vint 1],
          .vlist [.vint 1, .vint 3]]) =
      .ok [("x", .vrep [.vint 2, .vint 3])]) ∧
    (∀ (lastp : Pattern) (b : Bindings) (d : Value) (ds : List Value),
      PatternPy.matchP lastp d = .error .skip →
      rep_fold (PatternPy.build_matcher lastp) b (d :: ds) =
        rep_fold (PatternPy.build_matcher lastp) b ds) ∧
    (∀ (pre : List Pattern) (lastp : Pattern) (l1 : List Value) (d : Value)
      (l2 : List Value),
      PatternPy.matchP lastp d = .error .skip → pre.length ≤ l1.length →
      PatternPy.matchP (.repeatingList pre lastp) (.vlist (l1 ++ d :: l2)) =
        PatternPy.matchP (.repeatingList pre lastp) (.vlist (l1 ++ l2))) := by
  refine ⟨rfl, ?_, ?_⟩
  · intro lastp b d ds hskip
    simp only [PatternPy.matchP] at hskip
    simp [rep_fold, hskip]
  · intro pre lastp l1 d l2 hskip hlen
    simp only [PatternPy.matchP] at hskip
    simp only [PatternPy.matchP, PatternPy.build_matcher, repeating_run,
      PatternPy.build_matcher_list_length,
      List.take_append_of_le_length hlen, List.drop_append_of_le_length hlen]
    cases hfix : fixd_run (PatternPy.build_matcher_list pre)
        (.vlist (l1.take pre.length)) with
    | error e => rfl
    | ok b0 =>
        dsimp only
        cases hps : preseed b0 ((PatternPy.find_bindings lastp 0).map Prod.fst)
          with
        | error e => rfl
        | ok b1 =>
            dsimp only
            exact rep_fold_drops_skipped _ d hskip _ _ _

/-- C4 witness: the removal property applied to the concrete skipped
element `[1]` of the example. -/
theorem c4_skip_excluded_from_all_accumulators_witness :
    PatternPy.matchP
      (.repeatingList []
        (.skipMismatch (.fixedList [.lit (.vint 1), .bind "x"])))
      (.vlist [.vlist [.vint 1, .vint 2], .vlist [.vint 1],
        .vlist [.vint 1, .vint 3]]) =
    PatternPy.matchP
      (.repeatingList []
        (.skipMismatch (.fixedList [.lit (.vint 1), .bind "x"])))
      (.vlist [.vlist [.vint 1, .vint 2], .vlist [.vint 1, .vint 3]]) :=
  c4_skip_excluded_from_all_accumulators.2.2 []
    (.skipMismatch (.fixedList [.lit (.vint 1), .bind "x"]))
    [.vlist [.vint 1, .vint 2]] (.vlist [.vint 1])
    [.vlist [.vint 1, .vint 3]] rfl (by simp)

/-- C5: contrary to the claim, `build_actual_list_template` instantiates
the fixed items of a repeated list template with the default empty
coordinate instead of the current coordinate `c`: at coordinate `(0,)`
the fixed item `insert("a")` of the nested template
`[[insert("a"), insert("b"), ELLIPSIS], ELLIPSIS]` raises the
still-repeating error although `a` resolves fine at `(0,)`. -/
theorem c5_fixed_items_instantiated_at_empty_coordinate :
    (MatchoPy.instT (.repT [] (.repT [.ins "a"] (.ins "b")))
        [("a", .vrep [.vint 10, .vint 20]),
         ("b", .vrep [.vrep [.vint 1], .vrep [.vint 2, .vint 3]])] [] =
      .error (.stillRepeating "a")) ∧
    (MatchoPy.instT (.repT [.ins "a"] (.ins "b"))
        [("a", .vrep [.vint 10, .vint 20]),
         ("b", .vrep [.vrep [.vint 1], .vrep [.vint 2, .vint 3]])] [0] =
      .error (.stillRepeating "a")) ∧
    (MatchoPy.resolve_name
        [("a", .vrep [.vint 10, .vint 20]),
         ("b", .vrep [.vrep [.vint 1], .vrep [.vint 2, .vint 3]])] [0] "a" =
      .ok (.vint 10)) ∧
    (MatchoPy.instT (.ins "a")
        [("a", .vrep [.vint 10, .vint 20]),
         ("b", .vrep [.vrep [.vint 1], .vrep [.vint 2, .vint 3]])] [0] =
      .ok (.vint 10)) :=
  ⟨rfl, rfl, rfl, rfl⟩

/-- C6: contrary to the claim, `find_bindings` assigns names bound in
the positional prefix of a repeating list the incremented depth of the
repeated element, not the depth of the enclosing context: for
`[bind("x"), bind("y"), ELLIPSIS]` it reports `{x: 1, y: 1}`, although a
run of the matcher binds `x` to a plain scalar (depth 0). -/
theorem c6_find_bindings_prefix_depth_eval :
    (PatternPy.find_bindings (.repeatingList [.bind "x"] (.bind "y")) 0 =
      [("x", 1), ("y", 1)]) ∧
    (PatternPy.matchP (.repeatingList [.bind "x"] (.bind "y"))
        (.vlist [.vint 1, .vint 2]) =
      .ok [("x", .vint 1), ("y", .vrep [.vint 2])]) :=
  ⟨rfl, rfl⟩

/-- C9: contrary to the claim, a compiled skip-free matcher can fail
outside the five-error Mismatch taxonomy: the pattern.py repeating-list
matcher slices its data without an `isinstance` check, so
`build_matcher([1, ...])` applied to the integer `5` raises a plain
`TypeError` (not a `Mismatch`); and the matcho.py dict matcher never
checks its data, so `build_matcher({})` applied to the string
`"not-a-dict"` silently succeeds instead of raising `TypeMismatch`.
On a string the pattern.py matcher does raise `TypeMismatch` (the only
non-list case its own tests exercise). -/
theorem c9_failures_outside_mismatch_taxonomy :
    (PatternPy.matchP (.repeatingList [] (.lit (.vint 1))) (.vint 5) =
      .error .typeError) ∧
    (isMismatch .typeError = false) ∧
    (MatchoPy.matchM (.dict []) (.vstr "not-a-dict") = .ok []) ∧
    (PatternPy.matchP (.repeatingList [] (.lit (.vint 1)))
        (.vstr "not-a-list") = .error .typeMismatch) :=
  ⟨rfl, rfl, rfl, rfl⟩

namespace MatchoPy

theorem build_matcher_list_length_m :
    ∀ (ps : List Pattern), (build_matcher_list ps).length = ps.length := by
  intro ps
  induction ps with
  | nil => rfl
  | cons p rest ih => simp [build_matcher_list, ih]

theorem build_matcher_list_map_lit :
    ∀ (lits : List Value),
      build_matcher_list (lits.map .lit) = lits.map literal_run := by
  intro lits
  induction lits with
  | nil => rfl
  | cons l rest ih => simp [build_matcher_list, build_matcher, ih]

end MatchoPy

theorem seq_run_literals :
    ∀ (lits : List Value) (xs : List Value) (acc : Bindings),
      xs.length = lits.length →
      seq_run (lits.map literal_run) xs acc =
        if veqList xs lits then .ok acc else .error .literalMismatch := by
  intro lits
  induction lits with
  | nil =>
      intro xs acc h
      rw [List.length_eq_zero.mp h]
      rfl
  | cons l rest ih =>
      intro xs acc h
      cases xs with
      | nil => simp at h
      | cons x xs2 =>
          simp only [List.length_cons, Nat.succ.injEq] at h
          simp only [List.map_cons, seq_run, literal_run, veqList]
          by_cases hv : veq x l = true
          · have hmerge : amerge acc ([] : Bindings) = acc := rfl
            simp [hv, hmerge, ih xs2 acc h]
          · simp only [Bool.not_eq_true] at hv
            simp [hv]

theorem rep_fold_m_literal :
    ∀ (v : Value) (ds : List Value) (b : Bindings),
      MatchoPy.rep_fold_m (literal_run v) b ds =
        if ds.all (fun x => veq x v) then .ok b else .error .literalMismatch := by
  intro v ds
  induction ds with
  | nil => intro b; rfl
  | cons d rest ih =>
      intro b
      simp only [MatchoPy.rep_fold_m, literal_run, List.all_cons]
      by_cases hv : veq d v = true
      · have happ : MatchoPy.append_all_m b ([] : Bindings) = .ok b := rfl
        simp [hv, happ, ih b]
      · simp only [Bool.not_eq_true] at hv
        simp [hv]

/-- C3: for the matcho.py repeating-list matcher, `[1, 2, 3, ELLIPSIS]`
accepts `[1,2,3]`, `[1,2,3,3]` and `[1,2,3,3,3]` with no bindings,
rejects `[1,2,3,4]` with `LiteralMismatch` and rejects `[1,2]` with
`LengthMismatch`; in general, with `k` patterns before the marker the
matcher demands length at least `k` (shorter lists fail with
`LengthMismatch`), and for all-literal patterns it accepts exactly the
lists whose first `k-1` elements equal the prefix literals and whose
remaining elements all equal the last literal. -/
theorem c3_prefix_and_repeat :
    (MatchoPy.matchM
        (.repeatingList [.lit (.vint 1), .lit (.vint 2)] (.lit (.vint 3)))
        (.vlist [.vint 1, .vint 2, .vint 3]) = .ok []) ∧
    (MatchoPy.matchM
        (.repeatingList [.lit (.vint 1), .lit (.vint 2)] (.lit (.vint 3)))
        (.vlist [.vint 1, .vint 2, .vint 3, .vint 3]) = .ok []) ∧
    (MatchoPy.matchM
        (.repeatingList [.lit (.vint 1), .lit (.vint 2)] (.lit (.vint 3)))
        (.vlist [.vint 1, .vint 2, .vint 3, .vint 3, .vint 3]) = .ok []) ∧
    (MatchoPy.matchM
        (.repeatingList [.lit (.vint 1), .lit (.vint 2)] (.lit (.vint 3)))
        (.vlist [.vint 1, .vint 2, .vint 3, .vint 4]) =
      .error .literalMismatch) ∧
    (MatchoPy.matchM
        (.repeatingList [.lit (.vint 1), .lit (.vint 2)] (.lit (.vint 3)))
        (.vlist [.vint 1, .vint 2]) = .error (.lengthMismatch 2 3)) ∧
    (∀ (pre : List Pattern) (lastp : Pattern) (xs : List Value) (b : Bindings),
      MatchoPy.matchM (.repeatingList pre lastp) (.vlist xs) = .ok b →
      pre.length < xs.length) ∧
    (∀ (pre : List Pattern) (lastp : Pattern) (xs : List Value),
      xs.length ≤ pre.length →
      MatchoPy.matchM (.repeatingList pre lastp) (.vlist xs) =
        .error (.lengthMismatch xs.length (pre.length + 1))) ∧
    (∀ (lits : List Value) (lastLit : Value) (xs : List Value),
      MatchoPy.matchM (.repeatingList (lits.map .lit) (.lit lastLit))
          (.vlist xs) = .ok [] ↔
        (lits.length < xs.length ∧
          veqList (xs.take lits.length) lits = true ∧
          (xs.drop lits.length).all (fun x => veq x lastLit) = true)) := by
  refine ⟨rfl, rfl, rfl, rfl, rfl, ?_, ?_, ?_⟩
  · intro pre lastp xs b hok
    simp only [MatchoPy.matchM, MatchoPy.build_matcher, MatchoPy.repeating_run_m,
      MatchoPy.build_matcher_list_length_m] at hok
    split at hok
    · simp at hok
    · omega
  · intro pre lastp xs hle
    simp [MatchoPy.matchM, MatchoPy.build_matcher, MatchoPy.repeating_run_m,
      MatchoPy.build_matcher_list_length_m, hle]
  · intro lits lastLit xs
    simp only [MatchoPy.matchM, MatchoPy.build_matcher, MatchoPy.repeating_run_m,
      MatchoPy.build_matcher_list_map_lit, List.length_map]
    by_cases hle : xs.length ≤ lits.length
    · simp only [hle, if_true]
      constructor
      · intro h; simp at h
      · intro ⟨h1, _, _⟩; omega
    · have hlt : lits.length < xs.length := by omega
      have htk : (xs.take lits.length).length = lits.length := by
        rw [List.length_take]; omega
      simp only [hle, if_false]
      rw [seq_run_literals lits (xs.take lits.length) [] htk]
      by_cases hveq : veqList (xs.take lits.length) lits = true
      · simp only [hveq, if_true]
        rw [rep_fold_m_literal]
        by_cases hall : (xs.drop lits.length).all (fun x => veq x lastLit) = true
        · simp [hall, hlt, hveq]
        · simp only [Bool.not_eq_true] at hall
          simp [hall]
      · simp only [Bool.not_eq_true] at hveq
        simp [hveq]

/-- C3 witness: the length rule applied to `[1, 2, 3, ELLIPSIS]` and the
two-element list `[1, 2]`, and the literal characterization applied to
`[1,2,3,3]`. -/
theorem c3_prefix_and_repeat_witness :
    MatchoPy.matchM
        (.repeatingList [.lit (.vint 1), .lit (.vint 2)] (.lit (.vint 3)))
        (.vlist [.vint 1, .vint 2]) = .error (.lengthMismatch 2 3) ∧
    (1 : Nat) < 2 :=
  ⟨c3_prefix_and_repeat.2.2.2.2.2.2.1 [.lit (.vint 1), .lit (.vint 2)]
      (.lit (.vint 3)) [.vint 1, .vint 2] (by decide),
    c3_prefix_and_repeat.2.2.2.2.2.1 [.lit (.vint 1)] (.lit (.vint 2))
      [.vint 1, .vint 2] [] rfl⟩

/-- C7: `skip_missing_keys(keys, pattern)` (matcho.py) converts an inner
failure into `Skip` exactly when it is a `KeyMismatch` whose key is one
of the configured keys; a `KeyMismatch` on an unlisted key and any
non-`KeyMismatch` failure propagate unchanged, and successes pass
through untouched. -/
theorem c7_skip_missing_keys_filter :
    ∀ (keys : List Value) (p : Pattern) (d : Value),
      (∀ b, MatchoPy.matchM p d = .ok b →
        MatchoPy.matchM (.skipMissingKeys keys p) d = .ok b) ∧
      (∀ k, MatchoPy.matchM p d = .error (.keyMismatch k) →
        keys.any (fun e => veq e k) = true →
        MatchoPy.matchM (.skipMissingKeys keys p) d = .error .skip) ∧
      (∀ k, MatchoPy.matchM p d = .error (.keyMismatch k) →
        keys.any (fun e => veq e k) = false →
        MatchoPy.matchM (.skipMissingKeys keys p) d =
          .error (.keyMismatch k)) ∧
      (∀ e, MatchoPy.matchM p d = .error e →
        (∀ k, e ≠ .keyMismatch k) →
        MatchoPy.matchM (.skipMissingKeys keys p) d = .error e) := by
  intro keys p d
  refine ⟨?_, ?_, ?_, ?_⟩
  · intro b h
    simp only [MatchoPy.matchM, MatchoPy.build_matcher, skip_missing_keys_run]
      at h ⊢
    rw [h]
  · intro k h hany
    simp only [MatchoPy.matchM, MatchoPy.build_matcher, skip_missing_keys_run]
      at h ⊢
    rw [h]
    simp [hany]
  · intro k h hany
    simp only [MatchoPy.matchM, MatchoPy.build_matcher, skip_missing_keys_run]
      at h ⊢
    rw [h]
    simp [hany]
  · intro e h hne
    simp only [MatchoPy.matchM, MatchoPy.build_matcher, skip_missing_keys_run]
      at h ⊢
    rw [h]
    cases e with
    | keyMismatch k => exact absurd rfl (hne k)
    | _ => rfl

/-- C7 witness: the filter applied to the concrete pattern
`skip_missing_keys(["x"], {"x": bind("x")})` on the empty dict (listed
missing key becomes `Skip`) and on a dict with the wrong value type
for an unrelated failure. -/
theorem c7_skip_missing_keys_filter_witness :
    MatchoPy.matchM
      (.skipMissingKeys [.vstr "x"] (.dict [(.plain (.vstr "x"), .bind "x")]))
      (.vdict []) = .error .skip :=
  (c7_skip_missing_keys_filter [.vstr "x"]
      (.dict [(.plain (.vstr "x"), .bind "x")]) (.vdict [])).2.1
    (.vstr "x") rfl rfl

namespace MatchoPy

theorem get_nested_not_rep :
    ∀ (v : Value) (nl : List Nat), isRep v = false → get_nested v nl = .ok v := by
  intro v nl h
  cases nl with
  | nil => cases v <;> rfl
  | cons i rest => cases v <;> first | rfl | simp [isRep] at h

theorem get_nested_append :
    ∀ (l1 l2 : List Nat) (v : Value),
      get_nested v (l1 ++ l2) =
        match get_nested v l1 with
        | .ok w => get_nested w l2
        | .error e => .error e := by
  intro l1
  induction l1 with
  | nil => intro l2 v; cases v <;> rfl
  | cons i rest ih =>
      intro l2 v
      cases v with
      | vrep vs =>
          simp only [List.cons_append, get_nested]
          cases vs.get? i with
          | some w => exact ih l2 w
          | none => rfl
      | vint n =>
          simp [get_nested, get_nested_not_rep (.vint n) l2 rfl]
      | vstr s =>
          simp [get_nested, get_nested_not_rep (.vstr s) l2 rfl]
      | vlist xs =>
          simp [get_nested, get_nested_not_rep (.vlist xs) l2 rfl]
      | vdict ps =>
          simp [get_nested, get_nested_not_rep (.vdict ps) l2 rfl]

theorem resolve_name_extend :
    ∀ (b : Bindings) (nl : List Nat) (name : String) (v : Value) (i : Nat),
      resolve_name b nl name = .ok v → isRep v = false →
      resolve_name b (nl ++ [i]) name = .ok v := by
  intro b nl name v i h hrep
  cases halk : alookup b name with
  | none => simp [resolve_name, halk] at h
  | some v0 =>
      simp only [resolve_name, halk] at h ⊢
      rw [get_nested_append nl [i] v0, h]
      exact get_nested_not_rep v [i] hrep

end MatchoPy

/-- C8: instantiating `insert(name)` resolves the bound value through
`get_nested`, which consumes one coordinate index per `Repeating` layer
and stops as soon as the coordinate is exhausted or a non-`Repeating`
value is reached (so a shallowly bound value broadcasts unchanged); if
the resolved value is still `Repeating` after the coordinate is
exhausted, instantiation fails with the still-repeating error instead of
returning a `Repeating`. -/
theorem c8_insert_descends_through_repeating :
    (∀ (v : Value), MatchoPy.get_nested v [] = .ok v) ∧
    (∀ (v : Value) (nl : List Nat), isRep v = false →
      MatchoPy.get_nested v nl = .ok v) ∧
    (∀ (vs : List Value) (i : Nat) (rest : List Nat) (h : i < vs.length),
      MatchoPy.get_nested (.vrep vs) (i :: rest) =
        MatchoPy.get_nested (vs.get ⟨i, h⟩) rest) ∧
    (∀ (b : Bindings) (nl : List Nat) (name : String) (w : Value),
      MatchoPy.resolve_name b nl name = .ok w → isRep w = false →
      MatchoPy.instT (.ins name) b nl = .ok w) ∧
    (∀ (b : Bindings) (nl : List Nat) (name : String) (ws : List Value),
      MatchoPy.resolve_name b nl name = .ok (.vrep ws) →
      MatchoPy.instT (.ins name) b nl =
        .error (.stillRepeating name)) := by
  refine ⟨?_, MatchoPy.get_nested_not_rep, ?_, ?_, ?_⟩
  · intro v; cases v <;> rfl
  · intro vs i rest h
    simp [MatchoPy.get_nested, List.getElem?_eq_getElem h]
  · intro b nl name w h hrep
    simp [MatchoPy.instT, MatchoPy.build_template, MatchoPy.insert_run, h, hrep]
  · intro b nl name ws h
    simp [MatchoPy.instT, MatchoPy.build_template, MatchoPy.insert_run, h, isRep]

/-- C8 witness: the descent rules applied to a value bound two levels
deep and to a shallow broadcast value. -/
theorem c8_insert_descends_through_repeating_witness :
    MatchoPy.get_nested (.vrep [.vint 7, .vint 8]) [1] =
      MatchoPy.get_nested (.vint 8) [] ∧
    MatchoPy.instT (.ins "x") [("x", .vint 5)] [0, 1] = .ok (.vint 5) ∧
    MatchoPy.instT (.ins "x") [("x", .vrep [])] [] =
      .error (.stillRepeating "x") :=
  ⟨c8_insert_descends_through_repeating.2.2.1 [.vint 7, .vint 8] 1 []
      (by decide),
    c8_insert_descends_through_repeating.2.2.2.1 [("x", .vint 5)] [0, 1] "x"
      (.vint 5) rfl rfl,
    c8_insert_descends_through_repeating.2.2.2.2 [("x", .vrep [])] [] "x" []
      rfl⟩

namespace MatchoPy

theorem crl_skip_nonrep (b : Bindings) (nl : List Nat) (n0 : String)
    (v : Value) (rest : List String) (acc : Option Nat)
    (hv : resolve_name b nl n0 = .ok v) (hrep : isRep v = false) :
    common_repetition_loop b nl (n0 :: rest) acc =
      common_repetition_loop b nl rest acc := by
  simp only [common_repetition_loop, hv]
  cases v with
  | vrep vs => simp [isRep] at hrep
  | vint m => cases acc <;> rfl
  | vstr s => cases acc <;> rfl
  | vlist xs => cases acc <;> rfl
  | vdict ps => cases acc <;> rfl

theorem crl_cons_rep (b : Bindings) (nl : List Nat) (n0 : String)
    (vs : List Value) (rest : List String)
    (hv : resolve_name b nl n0 = .ok (.vrep vs)) :
    common_repetition_loop b nl (n0 :: rest) none =
      common_repetition_loop b nl rest (some vs.length) := by
  simp [common_repetition_loop, hv]

theorem crl_cons_rep_eq (b : Bindings) (nl : List Nat) (n0 : String)
    (vs : List Value) (rest : List String) (l : Nat)
    (hv : resolve_name b nl n0 = .ok (.vrep vs)) (h : vs.length = l) :
    common_repetition_loop b nl (n0 :: rest) (some l) =
      common_repetition_loop b nl rest (some l) := by
  simp [common_repetition_loop, hv, h]

theorem crl_cons_rep_ne (b : Bindings) (nl : List Nat) (n0 : String)
    (vs : List Value) (rest : List String) (l : Nat)
    (hv : resolve_name b nl n0 = .ok (.vrep vs)) (h : ¬vs.length = l) :
    common_repetition_loop b nl (n0 :: rest) (some l) =
      .error (.repeatLengthMismatch n0 vs.length l) := by
  simp [common_repetition_loop, hv, h]

theorem repLen_some_of (b : Bindings) (nl : List Nat) (n : String)
    (vs : List Value) (hv : resolve_name b nl n = .ok (.vrep vs)) :
    repLen b nl n = some vs.length := by
  simp only [repLen]
  rw [hv]

theorem repLen_none_of (b : Bindings) (nl : List Nat) (n : String)
    (v : Value) (hv : resolve_name b nl n = .ok v) (hrep : isRep v = false) :
    repLen b nl n = none := by
  simp only [repLen]
  rw [hv]
  cases v with
  | vrep vs => simp [isRep] at hrep
  | vint m => rfl
  | vstr s => rfl
  | vlist xs => rfl
  | vdict ps => rfl

theorem crl_agree (b : Bindings) (nl : List Nat) :
    ∀ (names : List String) (c : Nat),
      (∀ n ∈ names, ∃ v, resolve_name b nl n = .ok v) →
      (∀ n ∈ names, repLen b nl n = none ∨ repLen b nl n = some c) →
      common_repetition_loop b nl names (some c) = .ok c := by
  intro names
  induction names with
  | nil => intro c _ _; rfl
  | cons n0 rest ih =>
      intro c hres hall
      obtain ⟨v, hv⟩ := hres n0 (by simp)
      cases v with
      | vrep vs =>
          have hln := repLen_some_of b nl n0 vs hv
          rcases hall n0 (by simp) with h | h
          · rw [hln] at h; simp at h
          · rw [hln] at h
            simp only [Option.some.injEq] at h
            rw [crl_cons_rep_eq b nl n0 vs rest c hv h]
            exact ih c (fun n hn => hres n (by simp [hn]))
              (fun n hn => hall n (by simp [hn]))
      | vint m =>
          rw [crl_skip_nonrep b nl n0 _ rest _ hv rfl]
          exact ih c (fun n hn => hres n (by simp [hn]))
            (fun n hn => hall n (by simp [hn]))
      | vstr s =>
          rw [crl_skip_nonrep b nl n0 _ rest _ hv rfl]
          exact ih c (fun n hn => hres n (by simp [hn]))
            (fun n hn => hall n (by simp [hn]))
      | vlist xs =>
          rw [crl_skip_nonrep b nl n0 _ rest _ hv rfl]
          exact ih c (fun n hn => hres n (by simp [hn]))
            (fun n hn => hall n (by simp [hn]))
      | vdict ps =>
          rw [crl_skip_nonrep b nl n0 _ rest _ hv rfl]
          exact ih c (fun n hn => hres n (by simp [hn]))
            (fun n hn => hall n (by simp [hn]))

theorem crl_all_none (b : Bindings) (nl : List Nat) :
    ∀ (names : List String) (acc : Option Nat),
      (∀ n ∈ names, ∃ v, resolve_name b nl n = .ok v) →
      (∀ n ∈ names, repLen b nl n = none) →
      common_repetition_loop b nl names acc =
        (match acc with
          | none => .error .noRepeatedBindings
          | some l => .ok l) := by
  intro names
  induction names with
  | nil => intro acc _ _; cases acc <;> rfl
  | cons n0 rest ih =>
      intro acc hres hnone
      obtain ⟨v, hv⟩ := hres n0 (by simp)
      cases v with
      | vrep vs =>
          have hn0 := hnone n0 (by simp)
          rw [repLen_some_of b nl n0 vs hv] at hn0
          simp at hn0
      | vint m =>
          rw [crl_skip_nonrep b nl n0 _ rest _ hv rfl]
          exact ih acc (fun n hn => hres n (by simp [hn]))
            (fun n hn => hnone n (by simp [hn]))
      | vstr s =>
          rw [crl_skip_nonrep b nl n0 _ rest _ hv rfl]
          exact ih acc (fun n hn => hres n (by simp [hn]))
            (fun n hn => hnone n (by simp [hn]))
      | vlist xs =>
          rw [crl_skip_nonrep b nl n0 _ rest _ hv rfl]
          exact ih acc (fun n hn => hres n (by simp [hn]))
            (fun n hn => hnone n (by simp [hn]))
      | vdict ps =>
          rw [crl_skip_nonrep b nl n0 _ rest _ hv rfl]
          exact ih acc (fun n hn => hres n (by simp [hn]))
            (fun n hn => hnone n (by simp [hn]))

theorem crl_reaches_ok (b : Bindings) (nl : List Nat) :
    ∀ (names : List String) (c : Nat),
      (∀ n ∈ names, ∃ v, resolve_name b nl n = .ok v) →
      (∀ n ∈ names, repLen b nl n = none ∨ repLen b nl n = some c) →
      (∃ n ∈ names, repLen b nl n = some c) →
      common_repetition_loop b nl names none = .ok c := by
  intro names
  induction names with
  | nil => intro c _ _ hex; simp at hex
  | cons n0 rest ih =>
      intro c hres hall hex
      obtain ⟨v, hv⟩ := hres n0 (by simp)
      cases v with
      | vrep vs =>
          have hln := repLen_some_of b nl n0 vs hv
          rcases hall n0 (by simp) with h | h
          · rw [hln] at h; simp at h
          · rw [hln] at h
            simp only [Option.some.injEq] at h
            rw [crl_cons_rep b nl n0 vs rest hv, h]
            exact crl_agree b nl rest c (fun n hn => hres n (by simp [hn]))
              (fun n hn => hall n (by simp [hn]))
      | vint m =>
          rw [crl_skip_nonrep b nl n0 _ rest _ hv rfl]
          refine ih c (fun n hn => hres n (by simp [hn]))
            (fun n hn => hall n (by simp [hn])) ?_
          obtain ⟨n, hn, hsome⟩ := hex
          rcases List.mem_cons.mp hn with heq | htail
          · rw [heq] at hsome
            rw [repLen_none_of b nl n0 _ hv rfl] at hsome
            simp at hsome
          · exact ⟨n, htail, hsome⟩
      | vstr s =>
          rw [crl_skip_nonrep b nl n0 _ rest _ hv rfl]
          refine ih c (fun n hn => hres n (by simp [hn]))
            (fun n hn => hall n (by simp [hn])) ?_
          obtain ⟨n, hn, hsome⟩ := hex
          rcases List.mem_cons.mp hn with heq | htail
          · rw [heq] at hsome
            rw [repLen_none_of b nl n0 _ hv rfl] at hsome
            simp at hsome
          · exact ⟨n, htail, hsome⟩
      | vlist xs =>
          rw [crl_skip_nonrep b nl n0 _ rest _ hv rfl]
          refine ih c (fun n hn => hres n (by simp [hn]))
            (fun n hn => hall n (by simp [hn])) ?_
          obtain ⟨n, hn, hsome⟩ := hex
          rcases List.mem_cons.mp hn with heq | htail
          · rw [heq] at hsome
            rw [repLen_none_of b nl n0 _ hv rfl] at hsome
            simp at hsome
          · exact ⟨n, htail, hsome⟩
      | vdict ps =>
          rw [crl_skip_nonrep b nl n0 _ rest _ hv rfl]
          refine ih c (fun n hn => hres n (by simp [hn]))
            (fun n hn => hall n (by simp [hn])) ?_
          obtain ⟨n, hn, hsome⟩ := hex
          rcases List.mem_cons.mp hn with heq | htail
          · rw [heq] at hsome
            rw [repLen_none_of b nl n0 _ hv rfl] at hsome
            simp at hsome
          · exact ⟨n, htail, hsome⟩

theorem crl_bad_acc (b : Bindings) (nl : List Nat) :
    ∀ (names : List String) (l : Nat),
      (∀ n ∈ names, ∃ v, resolve_name b nl n = .ok v) →
      (∃ n ∈ names, ∃ c2, repLen b nl n = some c2 ∧ c2 ≠ l) →
      ∃ nm g, common_repetition_loop b nl names (some l) =
          .error (.repeatLengthMismatch nm g l) ∧ g ≠ l := by
  intro names
  induction names with
  | nil => intro l _ hex; simp at hex
  | cons n0 rest ih =>
      intro l hres hex
      obtain ⟨v, hv⟩ := hres n0 (by simp)
      have htail : (∃ n ∈ rest, ∃ c2, repLen b nl n = some c2 ∧ c2 ≠ l) →
          ∃ nm g, common_repetition_loop b nl rest (some l) =
            .error (.repeatLengthMismatch nm g l) ∧ g ≠ l :=
        fun hx => ih l (fun n hn => hres n (by simp [hn])) hx
      cases v with
      | vrep vs =>
          have hln := repLen_some_of b nl n0 vs hv
          by_cases hlen : vs.length = l
          · rw [crl_cons_rep_eq b nl n0 vs rest l hv hlen]
            apply htail
            obtain ⟨n, hn, c2, hc2, hne⟩ := hex
            rcases List.mem_cons.mp hn with heq | hmem
            · rw [heq] at hc2
              rw [hln] at hc2
              simp only [Option.some.injEq] at hc2
              exact absurd (hlen ▸ hc2.symm) hne
            · exact ⟨n, hmem, c2, hc2, hne⟩
          · exact ⟨n0, vs.length,
              crl_cons_rep_ne b nl n0 vs rest l hv hlen, hlen⟩
      | vint m =>
          rw [crl_skip_nonrep b nl n0 _ rest _ hv rfl]
          apply htail
          obtain ⟨n, hn, c2, hc2, hne⟩ := hex
          rcases List.mem_cons.mp hn with heq | hmem
          · rw [heq] at hc2
            rw [repLen_none_of b nl n0 _ hv rfl] at hc2
            simp at hc2
          · exact ⟨n, hmem, c2, hc2, hne⟩
      | vstr s =>
          rw [crl_skip_nonrep b nl n0 _ rest _ hv rfl]
          apply htail
          obtain ⟨n, hn, c2, hc2, hne⟩ := hex
          rcases List.mem_cons.mp hn with heq | hmem
          · rw [heq] at hc2
            rw [repLen_none_of b nl n0 _ hv rfl] at hc2
            simp at hc2
          · exact ⟨n, hmem, c2, hc2, hne⟩
      | vlist xs =>
          rw [crl_skip_nonrep b nl n0 _ rest _ hv rfl]
          apply htail
          obtain ⟨n, hn, c2, hc2, hne⟩ := hex
          rcases List.mem_cons.mp hn with heq | hmem
          · rw [heq] at hc2
            rw [repLen_none_of b nl n0 _ hv rfl] at hc2
            simp at hc2
          · exact ⟨n, hmem, c2, hc2, hne⟩
      | vdict ps =>
          rw [crl_skip_nonrep b nl n0 _ rest _ hv rfl]
          apply htail
          obtain ⟨n, hn, c2, hc2, hne⟩ := hex
          rcases List.mem_cons.mp hn with heq | hmem
          · rw [heq] at hc2
            rw [repLen_none_of b nl n0 _ hv rfl] at hc2
            simp at hc2
          · exact ⟨n, hmem, c2, hc2, hne⟩

theorem crl_bad (b : Bindings) (nl : List Nat) :
    ∀ (names : List String) (n1 n2 : String) (c1 c2 : Nat),
      (∀ n ∈ names, ∃ v, resolve_name b nl n = .ok v) →
      n1 ∈ names → n2 ∈ names →
      repLen b nl n1 = some c1 → repLen b nl n2 = some c2 → c1 ≠ c2 →
      ∃ nm g l, common_repetition_loop b nl names none =
          .error (.repeatLengthMismatch nm g l) ∧ g ≠ l := by
  intro names
  induction names with
  | nil => intro n1 n2 c1 c2 _ h1 _ _ _ _; simp at h1
  | cons n0 rest ih =>
      intro n1 n2 c1 c2 hres h1 h2 hc1 hc2 hne
      obtain ⟨v, hv⟩ := hres n0 (by simp)
      cases v with
      | vrep vs =>
          have hln := repLen_some_of b nl n0 vs hv
          rw [crl_cons_rep b nl n0 vs rest hv]
          have hbad : ∃ n ∈ rest, ∃ c3, repLen b nl n = some c3 ∧
              c3 ≠ vs.length := by
            by_cases e1 : c1 = vs.length
            · refine ⟨n2, ?_, c2, hc2, fun h => hne (h ▸ e1 ▸ rfl)⟩
              rcases List.mem_cons.mp h2 with heq | hmem
              · rw [heq] at hc2
                rw [hln] at hc2
                simp only [Option.some.injEq] at hc2
                exact absurd (e1.trans hc2) hne
              · exact hmem
            · refine ⟨n1, ?_, c1, hc1, e1⟩
              rcases List.mem_cons.mp h1 with heq | hmem
              · rw [heq] at hc1
                rw [hln] at hc1
                simp only [Option.some.injEq] at hc1
                exact absurd hc1.symm e1
              · exact hmem
          obtain ⟨nm, g, hcrl, hg⟩ :=
            crl_bad_acc b nl rest vs.length
              (fun n hn => hres n (by simp [hn])) hbad
          exact ⟨nm, g, vs.length, hcrl, hg⟩
      | vint m =>
          rw [crl_skip_nonrep b nl n0 _ rest _ hv rfl]
          have m1 : n1 ∈ rest := by
            rcases List.mem_cons.mp h1 with heq | hmem
            · rw [heq] at hc1
              rw [repLen_none_of b nl n0 _ hv rfl] at hc1
              simp at hc1
            · exact hmem
          have m2 : n2 ∈ rest := by
            rcases List.mem_cons.mp h2 with heq | hmem
            · rw [heq] at hc2
              rw [repLen_none_of b nl n0 _ hv rfl] at hc2
              simp at hc2
            · exact hmem
          exact ih n1 n2 c1 c2 (fun n hn => hres n (by simp [hn])) m1 m2
            hc1 hc2 hne
      | vstr s =>
          rw [crl_skip_nonrep b nl n0 _ rest _ hv rfl]
          have m1 : n1 ∈ rest := by
            rcases List.mem_cons.mp h1 with heq | hmem
            · rw [heq] at hc1
              rw [repLen_none_of b nl n0 _ hv rfl] at hc1
              simp at hc1
            · exact hmem
          have m2 : n2 ∈ rest := by
            rcases List.mem_cons.mp h2 with heq | hmem
            · rw [heq] at hc2
              rw [repLen_none_of b nl n0 _ hv rfl] at hc2
              simp at hc2
            · exact hmem
          exact ih n1 n2 c1 c2 (fun n hn => hres n (by simp [hn])) m1 m2
            hc1 hc2 hne
      | vlist xs =>
          rw [crl_skip_nonrep b nl n0 _ rest _ hv rfl]
          have m1 : n1 ∈ rest := by
            rcases List.mem_cons.mp h1 with heq | hmem
            · rw [heq] at hc1
              rw [repLen_none_of b nl n0 _ hv rfl] at hc1
              simp at hc1
            · exact hmem
          have m2 : n2 ∈ rest := by
            rcases List.mem_cons.mp h2 with heq | hmem
            · rw [heq] at hc2
              rw [repLen_none_of b nl n0 _ hv rfl] at hc2
              simp at hc2
            · exact hmem
          exact ih n1 n2 c1 c2 (fun n hn => hres n (by simp [hn])) m1 m2
            hc1 hc2 hne
      | vdict ps =>
          rw [crl_skip_nonrep b nl n0 _ rest _ hv rfl]
          have m1 : n1 ∈ rest := by
            rcases List.mem_cons.mp h1 with heq | hmem
            · rw [heq] at hc1
              rw [repLen_none_of b nl n0 _ hv rfl] at hc1
              simp at hc1
            · exact hmem
          have m2 : n2 ∈ rest := by
            rcases List.mem_cons.mp h2 with heq | hmem
            · rw [heq] at hc2
              rw [repLen_none_of b nl n0 _ hv rfl] at hc2
              simp at hc2
            · exact hmem
          exact ih n1 n2 c1 c2 (fun n hn => hres n (by simp [hn])) m1 m2
            hc1 hc2 hne

end MatchoPy

/-- C2: the broadcasting step of a repeated template fragment resolves
each referenced name at the current coordinate and takes the lengths of
the `Repeating` results as candidate counts: if every candidate equals
`c` (and at least one name yields a candidate) the count is `c`; if no
referenced name resolves to a `Repeating` the no-repeated-bindings
error is raised; if two candidates differ the repeat-length-mismatch
error is raised; and a name that does not resolve to a `Repeating` is
reused unchanged at every extended coordinate.  Concretely,
`[[insert("x"), insert("y")], ELLIPSIS]` with
`{x: 0, y: Repeating([1,2])}` yields `[[0,1],[0,2]]`, and with
`{x: Repeating([1,2,3]), y: Repeating([1,2])}` raises the
length-mismatch error. -/
theorem c2_broadcasting_common_count :
    (MatchoPy.instT (.repT [] (.fixedT [.ins "x", .ins "y"]))
        [("x", .vint 0), ("y", .vrep [.vint 1, .vint 2])] [] =
      .ok (.vlist [.vlist [.vint 0, .vint 1], .vlist [.vint 0, .vint 2]])) ∧
    (MatchoPy.instT (.repT [] (.fixedT [.ins "x", .ins "y"]))
        [("x", .vrep [.vint 1, .vint 2, .vint 3]),
         ("y", .vrep [.vint 1, .vint 2])] [] =
      .error (.repeatLengthMismatch "y" 2 3)) ∧
    (∀ (b : Bindings) (nl : List Nat) (names : List String) (c : Nat),
      (∀ n ∈ names, ∃ v, MatchoPy.resolve_name b nl n = .ok v) →
      (∀ n ∈ names, MatchoPy.repLen b nl n = none ∨
        MatchoPy.repLen b nl n = some c) →
      (∃ n ∈ names, MatchoPy.repLen b nl n = some c) →
      MatchoPy.common_repetition_length b nl names = .ok c) ∧
    (∀ (b : Bindings) (nl : List Nat) (names : List String),
      (∀ n ∈ names, ∃ v, MatchoPy.resolve_name b nl n = .ok v) →
      (∀ n ∈ names, MatchoPy.repLen b nl n = none) →
      MatchoPy.common_repetition_length b nl names =
        .error .noRepeatedBindings) ∧
    (∀ (b : Bindings) (nl : List Nat) (names : List String)
      (n1 n2 : String) (c1 c2 : Nat),
      (∀ n ∈ names, ∃ v, MatchoPy.resolve_name b nl n = .ok v) →
      n1 ∈ names → n2 ∈ names →
      MatchoPy.repLen b nl n1 = some c1 →
      MatchoPy.repLen b nl n2 = some c2 → c1 ≠ c2 →
      ∃ nm g l, MatchoPy.common_repetition_length b nl names =
          .error (.repeatLengthMismatch nm g l) ∧ g ≠ l) ∧
    (∀ (b : Bindings) (nl : List Nat) (name : String) (v : Value) (i : Nat),
      MatchoPy.resolve_name b nl name = .ok v → isRep v = false →
      MatchoPy.resolve_name b (nl ++ [i]) name = .ok v) := by
  refine ⟨rfl, rfl, ?_, ?_, ?_, MatchoPy.resolve_name_extend⟩
  · intro b nl names c hres hall hex
    exact MatchoPy.crl_reaches_ok b nl names c hres hall hex
  · intro b nl names hres hnone
    exact MatchoPy.crl_all_none b nl names none hres hnone
  · intro b nl names n1 n2 c1 c2 hres h1 h2 hc1 hc2 hne
    exact MatchoPy.crl_bad b nl names n1 n2 c1 c2 hres h1 h2 hc1 hc2 hne

/-- C2 witness: the common-count rule applied to the concrete bindings
`{x: 0, y: Repeating([1,2])}` with referenced names `x` and `y`. -/
theorem c2_broadcasting_common_count_witness :
    MatchoPy.common_repetition_length
      [("x", .vint 0), ("y", .vrep [.vint 1, .vint 2])] [] ["x", "y"] =
      .ok 2 :=
  c2_broadcasting_common_count.2.2.1
    [("x", .vint 0), ("y", .vrep [.vint 1, .vint 2])] [] ["x", "y"] 2
    (by
      intro n hn
      rcases List.mem_cons.mp hn with rfl | hn2
      · exact ⟨.vint 0, rfl⟩
      rcases List.mem_cons.mp hn2 with rfl | hn3
      · exact ⟨.vrep [.vint 1, .vint 2], rfl⟩
      · simp at hn3)
    (by
      intro n hn
      rcases List.mem_cons.mp hn with rfl | hn2
      · exact Or.inl rfl
      rcases List.mem_cons.mp hn2 with rfl | hn3
      · exact Or.inr rfl
      · simp at hn3)
    ⟨"y", by simp, rfl⟩

namespace Matcho

theorem dlookup_middle :
    ∀ (p1 p2 : List (Value × Value)) (kx ev k : Value),
      veq kx k = false →
      dlookup (p1 ++ (kx, ev) :: p2) k = dlookup (p1 ++ p2) k := by
  intro p1
  induction p1 with
  | nil => intro p2 kx ev k h; simp [dlookup, h]
  | cons q rest ih =>
      intro p2 kx ev k h
      obtain ⟨k2, v2⟩ := q
      by_cases h2 : veq k2 k = true
      · simp [dlookup, h2]
      · simp only [Bool.not_eq_true] at h2
        simp [dlookup, h2, ih p2 kx ev k h]

theorem lookup_vdict_middle :
    ∀ (dk : DKey) (p1 p2 : List (Value × Value)) (kx ev : Value),
      veq kx (dkeyRaw dk) = false →
      lookup (.vdict (p1 ++ (kx, ev) :: p2)) dk =
        lookup (.vdict (p1 ++ p2)) dk := by
  intro dk p1 p2 kx ev h
  cases dk with
  | plain k => simp [lookup, dlookup_middle p1 p2 kx ev k h]
  | dflt k dv =>
      simp only [dkeyRaw] at h
      simp [lookup, dlookup_middle p1 p2 kx ev k h]

theorem dict_seq_lookup_congr :
    ∀ (ms : List (DKey × MatcherF)) (d d2 : Value) (acc : Bindings),
      (∀ m ∈ ms, lookup d m.1 = lookup d2 m.1) →
      dict_seq ms d acc = dict_seq ms d2 acc := by
  intro ms
  induction ms with
  | nil => intro d d2 acc _; rfl
  | cons q rest ih =>
      intro d d2 acc h
      obtain ⟨k0, m0⟩ := q
      have hk := h (k0, m0) (by simp)
      simp only [dict_seq, hk]
      cases lookup d2 k0 with
      | error e => rfl
      | ok dv =>
          dsimp only
          cases m0 dv with
          | error e => rfl
          | ok bb =>
              dsimp only
              exact ih d d2 (amerge acc bb) (fun m hm => h m (by simp [hm]))

end Matcho

namespace PatternPy

open Matcho

theorem build_dict_matchers_keys :
    ∀ (entries : List (DKey × Pattern)) (m : DKey × MatcherF),
      m ∈ build_dict_matchers entries → ∃ p ∈ entries, m.1 = p.1 := by
  intro entries
  induction entries with
  | nil => intro m h; simp [build_dict_matchers] at h
  | cons q rest ih =>
      intro m h
      obtain ⟨k, p⟩ := q
      simp only [build_dict_matchers, List.mem_cons] at h
      rcases h with rfl | h
      · exact ⟨(k, p), by simp⟩
      · obtain ⟨p2, hp2, he⟩ := ih m h
        exact ⟨p2, by simp [hp2], he⟩

end PatternPy

/-- C10: the pattern.py dict matcher looks up only the keys declared in
the pattern, so data may carry arbitrary extra keys without changing the
result (open-world matching); a declared key absent from the data is
substituted by its declared default when wrapped as a default-key, and
produces `KeyMismatch` when it is a plain key; in particular matching
`{default("x", 42): bind("y")}` against `{}` yields `{y: 42}`. -/
theorem c10_open_world_dict_matching :
    (PatternPy.matchP (.dict [(.dflt (.vstr "x") (.vint 42), .bind "y")])
        (.vdict []) = .ok [("y", .vint 42)]) ∧
    (∀ (entries : List (DKey × Pattern)) (p1 p2 : List (Value × Value))
      (kx ev : Value),
      (∀ e ∈ entries, veq kx (dkeyRaw e.1) = false) →
      PatternPy.matchP (.dict entries) (.vdict (p1 ++ (kx, ev) :: p2)) =
        PatternPy.matchP (.dict entries) (.vdict (p1 ++ p2))) ∧
    (∀ (pairs : List (Value × Value)) (k dv : Value),
      dlookup pairs k = none →
      lookup (.vdict pairs) (.dflt k dv) = .ok dv) ∧
    (∀ (pairs : List (Value × Value)) (k : Value),
      dlookup pairs k = none →
      lookup (.vdict pairs) (.plain k) = .error (.keyMismatch k)) := by
  refine ⟨rfl, ?_, ?_, ?_⟩
  · intro entries p1 p2 kx ev h
    simp only [PatternPy.matchP, PatternPy.build_matcher, dict_run]
    apply dict_seq_lookup_congr
    intro m hm
    obtain ⟨p, hp, he⟩ := PatternPy.build_dict_matchers_keys entries m hm
    rw [he]
    exact lookup_vdict_middle p.1 p1 p2 kx ev (h p hp)
  · intro pairs k dv h
    simp [lookup, h]
  · intro pairs k h
    simp [lookup, h]

/-- C10 witness: extra-key invariance applied to the pattern
`{"x": bind("y")}` and an unrelated extra key `"z"`, plus the default
rule on the empty dict. -/
theorem c10_open_world_dict_matching_witness :
    PatternPy.matchP (.dict [(.plain (.vstr "x"), .bind "y")])
        (.vdict [(.vstr "x", .vint 1), (.vstr "z", .vint 9)]) =
      PatternPy.matchP (.dict [(.plain (.vstr "x"), .bind "y")])
        (.vdict [(.vstr "x", .vint 1)]) ∧
    lookup (.vdict []) (.dflt (.vstr "x") (.vint 42)) = .ok (.vint 42) :=
  ⟨c10_open_world_dict_matching.2.1 [(.plain (.vstr "x"), .bind "y")]
      [(.vstr "x", .vint 1)] [] (.vstr "z") (.vint 9)
      (by intro e he; simp at he; rw [he]; rfl),
    c10_open_world_dict_matching.2.2.1 [] (.vstr "x") (.vint 42) rfl⟩
